import Mathlib

/-!
Verification of the bounded price-history buffer and streaming client of the
Stock-App Streamlit repository (src/code.py and src/app.py).

Prices are modelled as rationals (`Rat`), timestamps as naturals. Python
dictionaries delivered by the feed are modelled as association lists whose
values carry the result of `float(...)` applied to the raw string: `none`
means the conversion raised, `some p` means it produced `p`.
-/

namespace StockApp

/-- One timestamped price sample, as stored in `GLOBAL_PRICE_HISTORY[asset_id]`
(code.py) and in `st.session_state.price_data` (app.py): a dict
`{"time": ts, "price": p}` resp. `{"timestamp": ts, "price": p}`. -/
structure Tick where
  time : Nat
  price : Rat
deriving Repr, DecidableEq

/-- The `HISTORY_MAX_POINTS = 1800` configuration constant of code.py. -/
def HISTORY_MAX_POINTS : Nat := 1800

/-- The append-and-trim mutation performed inside the lock by `_on_message`
(code.py lines 76-79): `lst.append(...)` followed by a single `lst.pop(0)`
when `len(lst) > maxPts`. -/
def appendTrim (maxPts : Nat) (lst : List Tick) (t : Tick) : List Tick :=
  if maxPts < (lst ++ [t]).length then (lst ++ [t]).tail else lst ++ [t]

/-- The append of `st.session_state.price_data.append(...)` in app.py, where
`price_data = deque(maxlen=500)`: a Python bounded deque evicts from the
front until the maxlen bound holds. -/
def dequeAppend (maxlen : Nat) (lst : List Tick) (t : Tick) : List Tick :=
  if maxlen < (lst ++ [t]).length then (lst ++ [t]).drop ((lst ++ [t]).length - maxlen)
  else lst ++ [t]

/-- `seed_price_once` of code.py (lines 40-55). The emptiness check
(`if GLOBAL_PRICE_HISTORY.get(asset_id): return`, Python truthiness: a
non-empty list is truthy) reads the series state `sCheck`; the fetch happens
outside the lock (`fetch = none` models any exception in the `try` block:
timeout, non-200 via `raise_for_status`, malformed body, missing price
field — all caught by the `except`); the append then runs against the series
state `sAppend` current at append time. The two states are passed separately
because the stream may append between the check and the append. The source
appends unconditionally in the second lock region — it does not re-check
emptiness and does not trim. -/
def seed_price_once (sCheck : List Tick) (fetch : Option Rat) (ts : Nat)
    (sAppend : List Tick) : List Tick :=
  match sCheck with
  | _ :: _ => sAppend
  | [] =>
    match fetch with
    | none => sAppend
    | some p => sAppend ++ [⟨ts, p⟩]

/-- A parsed inbound JSON message: keys with, for each, the result of
`float(value)` (`none` when the conversion raises). -/
def Payload := List (String × Option Rat)

/-- Dictionary membership plus lookup: models `asset_id in payload` followed
by `payload[asset_id]` in `_on_message`. -/
def lookupKey (payload : Payload) (k : String) : Option (Option Rat) :=
  match payload with
  | [] => none
  | (k2, v) :: rest => if k2 = k then some v else lookupKey rest k

/-- The `_on_message` handler of code.py (lines 69-81). `msg = none` models a
`json.loads` failure; a missing key skips the body; a failing `float(...)`
raises and is caught (series unchanged); otherwise the tick is appended and
trimmed. The source performs no positivity check on the parsed price. -/
def on_message (assetId : String) (maxPts : Nat) (lst : List Tick)
    (msg : Option Payload) (ts : Nat) : List Tick :=
  match msg with
  | none => lst
  | some payload =>
    match lookupKey payload assetId with
    | none => lst
    | some none => lst
    | some (some price) => appendTrim maxPts lst ⟨ts, price⟩

/-- Deliver a list of (message, timestamp) pairs to `on_message` in order. -/
def runMsgs (assetId : String) (maxPts : Nat) (init : List Tick)
    (msgs : List (Option Payload × Nat)) : List Tick :=
  msgs.foldl (fun lst m => on_message assetId maxPts lst m.1 m.2) init

/-- The four-message scenario of the spec: `{"bitcoin": "100"}`,
`{"other": "5"}`, `{"bitcoin": "-1"}`, `{"bitcoin": "110"}`, delivered for
asset "bitcoin". All four values parse as floats. -/
def scenarioMsgs : List (Option Payload × Nat) :=
  [(some [("bitcoin", some 100)], 0),
   (some [("other", some 5)], 1),
   (some [("bitcoin", some (-1))], 2),
   (some [("bitcoin", some 110)], 3)]

/-- The series produced by delivering `scenarioMsgs` to an empty series with
the configured bound. -/
def scenarioResult : List Tick :=
  runMsgs "bitcoin" HISTORY_MAX_POINTS [] scenarioMsgs

/-- Outcome of one iteration of the `while True` loop in `run_ws_forever`
(code.py lines 90-100): either the `WebSocketApp(...)` construction plus
`ws.run_forever()` call returns normally (as it does when the connection
closes — the library reports the close through the registered `on_close`
callback and returns), or an exception escapes the `try` block. -/
inductive WsOutcome where
  | closedNormally
  | raisedException
deriving Repr, DecidableEq, BEq

/-- Seconds slept by one loop iteration with the given outcome: the
`time.sleep(5)` of code.py line 100 sits inside the `except` branch only, so
a normal return re-enters the loop immediately. -/
def iterationSleep : WsOutcome → Nat
  | WsOutcome.closedNormally => 0
  | WsOutcome.raisedException => 5

/-- Observable state of the reconnect loop: connection attempts made so far
and total seconds spent in `time.sleep`. -/
structure WsLoopState where
  attempts : Nat
  sleptSeconds : Nat
deriving Repr, DecidableEq

/-- One iteration of the `while True` body: one connection attempt, followed
by the sleep its outcome dictates. -/
def ws_loop_step (s : WsLoopState) (o : WsOutcome) : WsLoopState :=
  ⟨s.attempts + 1, s.sleptSeconds + iterationSleep o⟩

/-- Run the reconnect loop of `run_ws_forever` through a finite prefix of
iteration outcomes, starting from the initial state. The loop itself never
exits: after any such prefix the next iteration begins unconditionally. -/
def run_ws_forever (os : List WsOutcome) : WsLoopState :=
  os.foldl ws_loop_step ⟨0, 0⟩

/-- State of `GLOBAL_THREADS` for one asset in `start_ws_for_asset` (code.py
lines 58-104): `thread = none` when no thread was ever registered for the
asset, `some b` when one was, with `b` its `is_alive()` value; `spawns`
counts the threads started for this asset. -/
structure ThreadsState where
  thread : Option Bool
  spawns : Nat
deriving Repr, DecidableEq

/-- A single (uninterleaved) call of `start_ws_for_asset`: return early when
`GLOBAL_THREADS.get(asset_id)` is present and alive, otherwise register and
start a fresh thread. -/
def start_ws_for_asset (s : ThreadsState) : ThreadsState :=
  match s.thread with
  | some true => s
  | _ => ⟨some true, s.spawns + 1⟩

/-- The two observable steps of `start_ws_for_asset` for interleaving two
concurrent calls: the alive-check (lines 63-64) and the register-and-start
(lines 102-104). The source takes no lock in this function, so any
interleaving of the two calls at this granularity is admissible. -/
inductive StartAction where
  | check (i : Fin 2)
  | spawn (i : Fin 2)
deriving DecidableEq

/-- Shared state for two interleaved `start_ws_for_asset` calls:
`threadAlive` is the per-asset marker both read and write, `spawns` counts
started threads, `passedCheck i` records that call `i` got past the
alive-check without returning. -/
structure ConcStartState where
  threadAlive : Bool
  spawns : Nat
  passedCheck : Fin 2 → Bool

/-- Semantics of one step of one of the two interleaved calls. A call whose
check sees a live thread returns (its spawn step is then a no-op). -/
def conc_step (s : ConcStartState) : StartAction → ConcStartState
  | StartAction.check i =>
    if s.threadAlive then s
    else ⟨s.threadAlive, s.spawns, fun j => if j = i then true else s.passedCheck j⟩
  | StartAction.spawn i =>
    if s.passedCheck i then ⟨true, s.spawns + 1, s.passedCheck⟩ else s

/-- Run a schedule of steps of the two calls from the initial state (no
thread yet, nothing spawned). -/
def conc_exec (sched : List StartAction) : ConcStartState :=
  sched.foldl conc_step ⟨false, 0, fun _ => false⟩

/-- The interleaving in which both calls perform their alive-check before
either spawns. Each call's check precedes its own spawn, as the source's
sequential control flow requires. -/
def racySchedule : List StartAction :=
  [StartAction.check 0, StartAction.check 1, StartAction.spawn 0, StartAction.spawn 1]

/-- One call of `BitcoinPriceStreamer.get_price` (app.py lines 87-112),
parameterised by the outcome each of the three APIs would deliver if called:
`results i = none` models any failure at API `i` (request exception, non-200
status, or a parser exception on the body), `some p` a successful fetch that
parses to price `p`. The loop makes `len(self.apis) = 3` attempts, reading
`self.apis[self.current_api]` and advancing `self.current_api` by one modulo
3 on each failure; a success returns at once without advancing. Returns the
fetched price (or `none` when all attempts failed) together with the final
value of `self.current_api`. -/
def getPriceAux (results : Fin 3 → Option Rat) : Nat → Fin 3 → Option Rat × Fin 3
  | 0, idx => (none, idx)
  | n + 1, idx =>
    match results idx with
    | some p => (some p, idx)
    | none => getPriceAux results n (idx + 1)

/-- Entry point of `get_price`: three attempts starting at the stored
`self.current_api` index. -/
def get_price (results : Fin 3 → Option Rat) (idx : Fin 3) : Option Rat × Fin 3 :=
  getPriceAux results 3 idx

/-- The rotation order `get_price` is claimed to follow, written out: try the
current API, on failure the next (mod 3), then the one after; report the
first success together with the index that produced it. After three failures
`self.current_api` has been advanced three times, i.e. back to its initial
value. -/
def getPriceSpec (results : Fin 3 → Option Rat) (idx : Fin 3) : Option Rat × Fin 3 :=
  match results idx with
  | some p => (some p, idx)
  | none =>
    match results (idx + 1) with
    | some p => (some p, idx + 1)
    | none =>
      match results (idx + 2) with
      | some p => (some p, idx + 2)
      | none => (none, idx)

/-- `prev_price = list(st.session_state.price_data)[-2]['price']` (app.py
line 191): the price stored second-to-last, i.e. the head of the suffix
starting at index `len - 2`. The call site guards `len(price_data) >= 2`;
for shorter lists Python would raise, modelled here by a junk value. -/
def prev_price (data : List Tick) : Rat :=
  ((data.drop (data.length - 2)).headD ⟨0, 0⟩).price

/-- The Current Price delta of app.py lines 192-193:
`change = current_price - prev_price; change_pct = (change / prev_price) * 100`,
with no zero guard on `prev_price`. -/
def change_pct (data : List Tick) (current : Rat) : Rat :=
  (current - prev_price data) / prev_price data * 100

/-- The session-state fields of app.py touched by the refresh cycle:
`price_data` (a `deque(maxlen=500)`), `current_price`, `last_update`. -/
structure AppState where
  price_data : List Tick
  current_price : Rat
  last_update : Option Nat
deriving Repr, DecidableEq

/-- The refresh cycle of app.py lines 167-183, given the value returned by
`get_price`: on `some p` the tick is appended to the bounded deque and
`current_price` and `last_update` are set; on `none` only a sidebar error is
shown and no session-state field is written. -/
def refresh_cycle (s : AppState) (price : Option Rat) (ts : Nat) : AppState :=
  match price with
  | none => s
  | some p => ⟨dequeAppend 500 s.price_data ⟨ts, p⟩, p, some ts⟩

/-- C1: every mutation of a per-asset series preserves the bounded-buffer
invariant. If the bound held before, it holds after the append-and-trim of
`_on_message` (code.py), after a seed performed on its own (the series seen
by the emptiness check and the append being the same), and after a
`deque(maxlen=500)` append (app.py), the latter unconditionally. -/
theorem history_bound_preserved (maxPts : Nat) (lst s : List Tick) (t : Tick)
    (fetch : Option Rat) (ts : Nat)
    (hmax : 0 < maxPts) (hlst : lst.length ≤ maxPts) (hs : s.length ≤ maxPts) :
    (appendTrim maxPts lst t).length ≤ maxPts ∧
    (seed_price_once s fetch ts s).length ≤ maxPts ∧
    (dequeAppend 500 lst t).length ≤ 500 := by
  refine ⟨?_, ?_, ?_⟩
  · unfold appendTrim
    split
    · rw [List.length_tail]
      simp only [List.length_append, List.length_cons, List.length_nil]
      omega
    · rename_i h
      simp only [List.length_append, List.length_cons, List.length_nil] at h
      simp only [List.length_append, List.length_cons, List.length_nil]
      omega
  · cases s with
    | nil =>
      cases fetch with
      | none => simp [seed_price_once]
      | some p => simp [seed_price_once]; omega
    | cons a rest =>
      simpa [seed_price_once] using hs
  · unfold dequeAppend
    split
    · rw [List.length_drop]
      omega
    · rename_i h
      simp only [List.length_append, List.length_cons, List.length_nil] at h
      simp only [List.length_append, List.length_cons, List.length_nil]
      omega

/-- C1 witness: the bound is preserved at the concrete configuration
`HISTORY_MAX_POINTS = 1800` with a one-element series. -/
theorem history_bound_preserved_witness :
    0 < HISTORY_MAX_POINTS ∧
    ([(⟨0, 100⟩ : Tick)].length ≤ HISTORY_MAX_POINTS) ∧
    ([(⟨0, 100⟩ : Tick)].length ≤ HISTORY_MAX_POINTS) ∧
    ((appendTrim HISTORY_MAX_POINTS [⟨0, 100⟩] ⟨1, 110⟩).length ≤ HISTORY_MAX_POINTS ∧
     (seed_price_once [(⟨0, 100⟩ : Tick)] (some 5) 2 [⟨0, 100⟩]).length ≤ HISTORY_MAX_POINTS ∧
     (dequeAppend 500 [(⟨0, 100⟩ : Tick)] ⟨1, 110⟩).length ≤ 500) :=
  ⟨by decide, by decide, by decide,
   history_bound_preserved HISTORY_MAX_POINTS [⟨0, 100⟩] [⟨0, 100⟩] ⟨1, 110⟩
     (some 5) 2 (by decide) (by decide) (by decide)⟩

/-- C2 counterexample: `_on_message` performs no `price > 0` validation, so
the spec's four-message scenario stores the negative tick: the resulting
prices are `[100, -1, 110]`, not `[100, 110]` as the claim states. -/
theorem negative_price_stored_cex :
    scenarioResult.map Tick.price = [100, -1, 110] ∧
    scenarioResult.map Tick.price ≠ [100, 110] := by
  decide

/-- C2 amended: a message that fails JSON parsing, lacks the tracked asset's
key, or whose value fails float conversion leaves the series unchanged; but
there is no positivity check, so a parsed price of any sign is stored and
the scenario yields prices `[100, -1, 110]`. -/
theorem message_filtering_amended (aid : String) (maxPts : Nat) (lst : List Tick)
    (ts : Nat) (p1 p2 : Payload)
    (h1 : lookupKey p1 aid = none) (h2 : lookupKey p2 aid = some none) :
    on_message aid maxPts lst none ts = lst ∧
    on_message aid maxPts lst (some p1) ts = lst ∧
    on_message aid maxPts lst (some p2) ts = lst ∧
    scenarioResult.map Tick.price = [100, -1, 110] := by
  refine ⟨rfl, ?_, ?_, by decide⟩
  · simp [on_message, h1]
  · simp [on_message, h2]

/-- C2 amended witness: the scenario's second and third messages at the
concrete payloads of the spec. -/
theorem message_filtering_amended_witness :
    lookupKey [("other", some 5)] "bitcoin" = none ∧
    lookupKey [("bitcoin", none)] "bitcoin" = some none ∧
    (on_message "bitcoin" HISTORY_MAX_POINTS [] none 0 = [] ∧
     on_message "bitcoin" HISTORY_MAX_POINTS [] (some [("other", some 5)]) 0 = [] ∧
     on_message "bitcoin" HISTORY_MAX_POINTS [] (some [("bitcoin", none)]) 0 = [] ∧
     scenarioResult.map Tick.price = [100, -1, 110]) :=
  ⟨by decide, by decide,
   message_filtering_amended "bitcoin" HISTORY_MAX_POINTS [] 0
     [("other", some 5)] [("bitcoin", none)] (by decide) (by decide)⟩

/-- C3: eviction is strictly FIFO. When the series already holds at least
the bound, append-and-trim removes exactly the oldest tick and keeps the
survivors in order (`lst.tail ++ [t]`); the spec scenario with bound 3 and
prices 10, 20, 30, 40 ends with prices 20, 30, 40. -/
theorem fifo_eviction (maxPts : Nat) (lst : List Tick) (t : Tick)
    (hmax : 0 < maxPts) (hfull : maxPts ≤ lst.length) :
    appendTrim maxPts lst t = lst.tail ++ [t] ∧
    ([(⟨0, 10⟩ : Tick), ⟨1, 20⟩, ⟨2, 30⟩, ⟨3, 40⟩].foldl (appendTrim 3) [])
      = [⟨1, 20⟩, ⟨2, 30⟩, ⟨3, 40⟩] := by
  refine ⟨?_, by decide⟩
  cases lst with
  | nil =>
    simp only [List.length_nil] at hfull
    omega
  | cons a rest =>
    have hfull2 : maxPts ≤ rest.length + 1 := by
      simpa using hfull
    have h : maxPts < ((a :: rest) ++ [t]).length := by
      simp only [List.length_append, List.length_cons, List.length_nil]
      omega
    unfold appendTrim
    rw [if_pos h]
    rfl

/-- C3 witness: a full three-element series at bound 3 evicts its oldest
element on the next append. -/
theorem fifo_eviction_witness :
    0 < 3 ∧
    3 ≤ ([(⟨0, 10⟩ : Tick), ⟨1, 20⟩, ⟨2, 30⟩].length) ∧
    (appendTrim 3 [⟨0, 10⟩, ⟨1, 20⟩, ⟨2, 30⟩] ⟨3, 40⟩
        = [(⟨0, 10⟩ : Tick), ⟨1, 20⟩, ⟨2, 30⟩].tail ++ [⟨3, 40⟩] ∧
     ([(⟨0, 10⟩ : Tick), ⟨1, 20⟩, ⟨2, 30⟩, ⟨3, 40⟩].foldl (appendTrim 3) [])
        = [⟨1, 20⟩, ⟨2, 30⟩, ⟨3, 40⟩]) :=
  ⟨by decide, by decide,
   fifo_eviction 3 [⟨0, 10⟩, ⟨1, 20⟩, ⟨2, 30⟩] ⟨3, 40⟩ (by decide) (by decide)⟩

/-- C4 counterexample: `seed_price_once` does not re-check emptiness at
append time. With the series empty at the check but holding one
stream-delivered tick by append time, the seed tick is appended anyway,
contradicting the claim that it would not be. -/
theorem seed_no_double_check_cex :
    seed_price_once [] (some 5) 1 [⟨0, 3⟩] = [⟨0, 3⟩, ⟨1, 5⟩] ∧
    seed_price_once [] (some 5) 1 [⟨0, 3⟩] ≠ [⟨0, 3⟩] := by
  decide

/-- C4 amended: the emptiness check happens exactly once, before the fetch.
A series non-empty at check time is left untouched; a series empty at check
time receives the fetched tick unconditionally, appended after whatever the
series holds at append time — there is no double-check. -/
theorem seed_single_check_amended (t : Tick) (rest sAppend : List Tick)
    (fetch : Option Rat) (ts : Nat) (p : Rat) :
    seed_price_once (t :: rest) fetch ts sAppend = sAppend ∧
    seed_price_once [] (some p) ts sAppend = sAppend ++ [⟨ts, p⟩] ∧
    seed_price_once [] none ts sAppend = sAppend :=
  ⟨rfl, rfl, rfl⟩

/-- C5 counterexample: the 5-second delay is not taken on every failure.
When the connection call returns normally — as it does when the connection
closes, the close being reported through the registered `on_close` callback —
the `while True` loop re-enters immediately: after that first failed
iteration the loop has slept 0 seconds, not 5. -/
theorem reconnect_delay_cex :
    run_ws_forever [WsOutcome.closedNormally] = ⟨1, 0⟩ ∧
    (run_ws_forever [WsOutcome.closedNormally]).sleptSeconds ≠ 5 := by
  decide

/-- C5 amended: the loop retries unconditionally — after any n failed
iterations exactly n attempts have been made and an (n+1)-th is made next,
with no retry limit and no backoff growth (the sleep per iteration is a
constant determined by its outcome alone: 5 seconds when an exception
escaped the `try` block, 0 when the connection call returned normally). -/
theorem reconnect_retries_amended (os : List WsOutcome) (o : WsOutcome) :
    (run_ws_forever os).attempts = os.length ∧
    (run_ws_forever (os ++ [o])).attempts = os.length + 1 ∧
    (run_ws_forever os).sleptSeconds = (os.map iterationSleep).sum ∧
    iterationSleep WsOutcome.raisedException = 5 ∧
    iterationSleep WsOutcome.closedNormally = 0 := by
  have key : ∀ (l : List WsOutcome) (s : WsLoopState),
      (l.foldl ws_loop_step s).attempts = s.attempts + l.length ∧
      (l.foldl ws_loop_step s).sleptSeconds
        = s.sleptSeconds + (l.map iterationSleep).sum := by
    intro l
    induction l with
    | nil => intro s; simp
    | cons a l2 ih =>
      intro s
      have h2 := ih (ws_loop_step s a)
      refine ⟨?_, ?_⟩
      · rw [List.foldl_cons, h2.1]; simp [ws_loop_step]; omega
      · rw [List.foldl_cons, h2.2]; simp [ws_loop_step]; omega
  have k1 := key os ⟨0, 0⟩
  have k2 := key (os ++ [o]) ⟨0, 0⟩
  refine ⟨?_, ?_, ?_, rfl, rfl⟩
  · rw [run_ws_forever, k1.1]
    simp
  · rw [run_ws_forever, k2.1]
    simp
  · rw [run_ws_forever, k1.2]
    simp

/-- C6 counterexample: `start_ws_for_asset` takes no lock around its
check-then-spawn, so the interleaving in which two concurrent start requests
both pass the alive-check before either registers its thread spawns two
clients for the same asset, contradicting the claimed guard and the claimed
at-most-one-active-client bound. -/
theorem concurrent_start_cex :
    (conc_exec racySchedule).spawns = 2 ∧ ¬ (conc_exec racySchedule).spawns ≤ 1 := by
  decide

/-- C6 amended: start is idempotent for non-interleaved requests — a call
made while the asset's thread is alive changes nothing, a repeated call is
absorbed, and any call leaves the marker alive. The check is not
lock-guarded, however: the check-check-spawn-spawn interleaving of two
concurrent requests spawns two clients. -/
theorem start_idempotent_amended (s : ThreadsState) (n : Nat) :
    start_ws_for_asset ⟨some true, n⟩ = ⟨some true, n⟩ ∧
    start_ws_for_asset (start_ws_for_asset s) = start_ws_for_asset s ∧
    (start_ws_for_asset s).thread = some true ∧
    (conc_exec racySchedule).spawns = 2 := by
  refine ⟨rfl, ?_, ?_, by decide⟩
  · cases s with
    | mk th m =>
      cases th with
      | none => rfl
      | some b => cases b <;> rfl
  · cases s with
    | mk th m =>
      cases th with
      | none => rfl
      | some b => cases b <;> rfl

/-- C7: every seed-fetch failure is non-fatal. Any exception inside the
`try` block of `seed_price_once` (timeout, non-200 status via
`raise_for_status`, malformed body, missing price field — all modelled by
`fetch = none`) is caught, the function returns normally (it is a total
function here), and the series is left exactly as it was. -/
theorem seed_failure_nonfatal (sCheck sAppend : List Tick) (ts : Nat) :
    seed_price_once sCheck none ts sAppend = sAppend := by
  cases sCheck <;> rfl

/-- C8: `get_price` tries the three APIs in rotation starting from the
stored index, advancing by one (mod 3) on each failure; it returns the first
success together with an index still designating the API that succeeded (so
the next call tries that API first), and returns `none` only when the
current API and the two following it in rotation — that is, all three — have
failed, the index then being back at its initial value. -/
theorem get_price_rotation (results : Fin 3 → Option Rat) (idx : Fin 3) :
    get_price results idx = getPriceSpec results idx := by
  have step : ∀ (n : Nat) (j : Fin 3), getPriceAux results (n + 1) j =
      match results j with
      | some p => (some p, j)
      | none => getPriceAux results n (j + 1) := fun _ _ => rfl
  have e2 : idx + 1 + 1 = idx + 2 := by revert idx; decide
  have e3 : idx + 1 + 1 + 1 = idx := by revert idx; decide
  unfold get_price getPriceSpec
  rw [step 2 idx]
  cases h0 : results idx with
  | some p => rfl
  | none =>
    rw [step 1 (idx + 1)]
    cases h1 : results (idx + 1) with
    | some p => rfl
    | none =>
      rw [step 0 (idx + 1 + 1), e2]
      cases h2 : results (idx + 2) with
      | some p => rfl
      | none =>
        unfold getPriceAux
        rw [← e2, e3]

/-- C9: under the precondition that every stored price is strictly positive
and at least two ticks are stored, the `prev_price` denominator of the
Current Price delta is positive, hence nonzero, and the displayed
percentage genuinely satisfies the division identity — the division-by-zero
branch is unreachable. -/
theorem change_pct_division_safe (data : List Tick)
    (h2 : 2 ≤ data.length) (hpos : ∀ t ∈ data, 0 < t.price) :
    0 < prev_price data ∧ prev_price data ≠ 0 ∧
    ∀ current : Rat,
      change_pct data current * prev_price data = (current - prev_price data) * 100 := by
  have hlen : (data.drop (data.length - 2)).length = 2 := by
    rw [List.length_drop]; omega
  cases hd : data.drop (data.length - 2) with
  | nil => rw [hd] at hlen; simp at hlen
  | cons t rest =>
    have hmem : t ∈ data := by
      have hin : t ∈ data.drop (data.length - 2) := by
        rw [hd]; exact List.mem_cons_self t rest
      exact List.drop_subset _ _ hin
    have hp := hpos t hmem
    have hpp : prev_price data = t.price := by
      unfold prev_price; rw [hd]; rfl
    rw [hpp]
    refine ⟨hp, ne_of_gt hp, ?_⟩
    intro c
    unfold change_pct
    rw [hpp]
    field_simp

/-- C9 witness: a two-tick buffer with positive prices. -/
theorem change_pct_division_safe_witness :
    2 ≤ ([(⟨0, 100⟩ : Tick), ⟨1, 110⟩].length) ∧
    (∀ t ∈ [(⟨0, 100⟩ : Tick), ⟨1, 110⟩], 0 < t.price) ∧
    (0 < prev_price [⟨0, 100⟩, ⟨1, 110⟩] ∧
     prev_price [(⟨0, 100⟩ : Tick), ⟨1, 110⟩] ≠ 0 ∧
     ∀ current : Rat,
       change_pct [⟨0, 100⟩, ⟨1, 110⟩] current * prev_price [⟨0, 100⟩, ⟨1, 110⟩]
         = (current - prev_price [⟨0, 100⟩, ⟨1, 110⟩]) * 100) :=
  ⟨by decide, by decide,
   change_pct_division_safe [⟨0, 100⟩, ⟨1, 110⟩] (by decide) (by decide)⟩

/-- C10: when `get_price` returns `none` (all APIs failed), the refresh
cycle writes nothing: `price_data`, `current_price` and `last_update` are
all unchanged, and since the buffer only ever receives a tick carrying the
fetched price in the `some` branch, a `None` price is never stored. -/
theorem failed_fetch_leaves_state (s : AppState) (ts : Nat) :
    refresh_cycle s none ts = s ∧
    (refresh_cycle s none ts).price_data = s.price_data ∧
    (refresh_cycle s none ts).current_price = s.current_price ∧
    (refresh_cycle s none ts).last_update = s.last_update :=
  ⟨rfl, rfl, rfl, rfl⟩

end StockApp
